import Mathlib

/-!
Verification development for the POP3 example server
(`example/pop3_test/server.py`).  The Python code is shallowly embedded:
message contents are byte lists, the per-connection session object is a
structure, each command handler is a function from the command, its
argument tokens and the session state to either a normal result
(new state plus the lines sent on the socket) or a raised exception
(carrying the state as mutated before the raise, plus the lines sent
before it).  The mailbox directory is a list of (file name, byte content)
pairs.
-/

namespace Pop3

/-- A message body: the raw bytes read from a mailbox file. -/
abbrev Msg := List Nat

/-- The mailbox directory: file names paired with file contents. -/
abbrev Store := List (String × Msg)

/-- One line written to the socket: either a Python string (`send_line`
on an `f`-string) or decoded message bytes (`send_line(line.decode())`). -/
inductive OutLine where
  | text (s : String)
  | data (b : Msg)
deriving DecidableEq, Repr

/-- Session state of `Pop3Session`: `state` is `"AUTH"` or
`"TRANSACTION"`, `deleted` is the set of 0-based marked indices, and
`connClosed` records whether `self.conn.close()` has run (a later
`sendall`/`recv` on the closed socket raises `OSError`). -/
structure Pop3State where
  state : String
  username : String
  messages : List Msg
  deleted : Finset ℕ
  connClosed : Bool
deriving DecidableEq

/-- Result of running one handler: `ok (state, sent lines)` on normal
return, `error (state, sent lines)` when a Python exception escapes
(`ValueError` from `int`, `IndexError` from `args[i]`, `OSError` from a
closed socket, `UnicodeDecodeError` from `line.decode()` on non-UTF-8
message bytes).  The error payload keeps mutations made before the
raise, exactly as the Python object would. -/
abbrev HRes := Except (Pop3State × List OutLine) (Pop3State × List OutLine)

/-- Python's whitespace characters, as used by `str.strip()` and
`str.split()`. -/
def pySpace (c : Char) : Bool :=
  c == ' ' || c == '\t' || c == '\n' || c == '\x0d' || c == '\x0b' || c == '\x0c'

/-- Python `str.strip()`: drop leading and trailing whitespace. -/
def pyStrip (s : String) : String :=
  String.mk (((s.data.dropWhile pySpace).reverse.dropWhile pySpace).reverse)

def pySplitWsAux : List Char → List Char → List String
  | [], acc => if acc = [] then [] else [String.mk acc.reverse]
  | c :: rest, acc =>
    if pySpace c then
      if acc = [] then pySplitWsAux rest []
      else String.mk acc.reverse :: pySplitWsAux rest []
    else pySplitWsAux rest (c :: acc)

/-- Python `str.split()` with no argument: split on whitespace runs,
producing no empty tokens. -/
def pySplitWs (s : String) : List String := pySplitWsAux s.data []

/-- Python `str.upper()` (ASCII command verbs). -/
def pyUpper (s : String) : String := String.mk (s.data.map Char.toUpper)

def splitCRLFAux : List Char → List Char → List String
  | [], acc => [String.mk acc.reverse]
  | '\x0d' :: '\x0a' :: rest, acc => String.mk acc.reverse :: splitCRLFAux rest []
  | c :: rest, acc => splitCRLFAux rest (c :: acc)

/-- Python `buffer.split('\r\n')`: every CRLF-delimited segment; the
last segment is the remaining partial line kept in the buffer.  Repeatedly
running `buffer.split('\r\n', 1)` while a CRLF remains consumes exactly
the segments before the last one. -/
def splitCRLF (s : String) : List String := splitCRLFAux s.data []

def digitsValAux : List Char → ℕ → Option ℕ
  | [], acc => some acc
  | c :: rest, acc =>
    if c.isDigit then digitsValAux rest (acc * 10 + (c.toNat - 48)) else none

/-- Python `int(s)`: optional surrounding whitespace, optional sign,
decimal digits; anything else raises `ValueError` (modelled as
`.error`). -/
def pyInt (str : String) : Except Unit Int :=
  let t := (pyStrip str).data
  let neg : Bool := match t with
    | '-' :: _ => true
    | _ => false
  let core := match t with
    | '-' :: rest => rest
    | '+' :: rest => rest
    | l => l
  if core = [] then .error ()
  else match digitsValAux core 0 with
    | some n => .ok (if neg then -(n : Int) else (n : Int))
    | none => .error ()

/-- Python `name.endswith(suffix)`. -/
def strEndsWith (s suffix : String) : Bool := suffix.data.isSuffixOf s.data

/-- Python string comparison: lexicographic over code points. -/
def lexLe : List Char → List Char → Bool
  | [], _ => true
  | _ :: _, [] => false
  | a :: as, b :: bs => if a = b then lexLe as bs else decide (a < b)

def insertLe (x : String) : List String → List String
  | [] => [x]
  | y :: ys => if lexLe x.data y.data then x :: y :: ys else y :: insertLe x ys

/-- Python `sorted` on strings: stable ascending insertion sort under
the lexicographic order. -/
def pySorted : List String → List String
  | [] => []
  | x :: xs => insertLe x (pySorted xs)

/-- Python `args[i]`: raises `IndexError` when the argument is absent. -/
def getArg (args : List String) (i : ℕ) : Except Unit String :=
  match args.get? i with
  | some a => .ok a
  | none => .error ()

/-- Python `bytes.splitlines()`: splits on `\n`, `\r` and `\r\n`,
without keeping the terminators and without a trailing empty line. -/
def pySplitlines : List Nat → List Nat → List Msg
  | [], acc => if acc = [] then [] else [acc.reverse]
  | 13 :: 10 :: rest, acc => acc.reverse :: pySplitlines rest []
  | 13 :: rest, acc => acc.reverse :: pySplitlines rest []
  | 10 :: rest, acc => acc.reverse :: pySplitlines rest []
  | c :: rest, acc => pySplitlines rest (c :: acc)

/-- Python `l[:n]`: a negative bound counts from the end. -/
def pyTake (n : Int) (l : List Msg) : List Msg :=
  if n < 0 then l.take ((l.length : Int) + n).toNat else l.take n.toNat

/-- Python `f"{n:04d}"` for a non-negative `n`. -/
def pad4 (n : ℕ) : String :=
  let s := toString n
  String.mk (List.replicate (4 - s.length) '0') ++ s

def USERNAME : String := "user"

def PASSWORD : String := "pass"

/-- `send_line` on a list of lines: sending on a closed socket raises. -/
def sendAll (s : Pop3State) (ls : List OutLine) : HRes :=
  if s.connClosed then .error (s, []) else .ok (s, ls)

/-- A UTF-8 continuation byte, `0x80..0xBF`. -/
def contByte (b : ℕ) : Bool := decide (0x80 ≤ b ∧ b ≤ 0xBF)

/-- Valid lead/second byte pair of a three-byte UTF-8 sequence
(excluding overlong forms and surrogates, as CPython's strict decoder
does). -/
def threeByteLead (c0 c1 : ℕ) : Bool :=
  (decide (c0 = 0xE0) && decide (0xA0 ≤ c1 ∧ c1 ≤ 0xBF)) ||
  (decide (0xE1 ≤ c0 ∧ c0 ≤ 0xEC) && contByte c1) ||
  (decide (c0 = 0xED) && decide (0x80 ≤ c1 ∧ c1 ≤ 0x9F)) ||
  (decide (0xEE ≤ c0 ∧ c0 ≤ 0xEF) && contByte c1)

/-- Valid lead/second byte pair of a four-byte UTF-8 sequence
(excluding overlong forms and code points above U+10FFFF). -/
def fourByteLead (c0 c1 : ℕ) : Bool :=
  (decide (c0 = 0xF0) && decide (0x90 ≤ c1 ∧ c1 ≤ 0xBF)) ||
  (decide (0xF1 ≤ c0 ∧ c0 ≤ 0xF3) && contByte c1) ||
  (decide (c0 = 0xF4) && decide (0x80 ≤ c1 ∧ c1 ≤ 0x8F))

/-- Whether `bytes.decode()` (strict UTF-8, Python's default) succeeds
on these bytes; when it does not, it raises `UnicodeDecodeError`. -/
def validUtf8 : List Nat → Bool
  | [] => true
  | c0 :: t0 =>
    if c0 ≤ 0x7F then validUtf8 t0
    else
      match t0 with
      | [] => false
      | c1 :: t1 =>
        if 0xC2 ≤ c0 ∧ c0 ≤ 0xDF then
          if contByte c1 then validUtf8 t1 else false
        else
          match t1 with
          | [] => false
          | c2 :: t2 =>
            if 0xE0 ≤ c0 ∧ c0 ≤ 0xEF then
              if threeByteLead c0 c1 && contByte c2 then validUtf8 t2 else false
            else
              match t2 with
              | [] => false
              | c3 :: t3 =>
                if 0xF0 ≤ c0 ∧ c0 ≤ 0xF4 then
                  if fourByteLead c0 c1 && contByte c2 && contByte c3 then
                    validUtf8 t3
                  else false
                else false

/-- `for line in lines: self.send_line(line.decode())` on an open
socket: each line is decoded then sent in order; the first non-UTF-8
line raises `UnicodeDecodeError` after the preceding lines were already
sent, so the error carries only those. -/
def sendDecoded : List Msg → List OutLine → Except (List OutLine) (List OutLine)
  | [], out => .ok out
  | l :: rest, out =>
    if validUtf8 l then sendDecoded rest (out ++ [.data l])
    else .error out

/-- The pairs `(i, m)` produced by
`for i, m in enumerate(self.messages): if i not in self.deleted` —
the entries reported by the multi-line LIST and UIDL forms. -/
def listedPairs (s : Pop3State) : List (ℕ × Msg) :=
  s.messages.enum.filter (fun p => p.1 ∉ s.deleted)

/-- The USER branch of `handle_auth`: `if args and args[0] == USERNAME`
reply success and record the name, else reply failure. -/
def handleUser (args : List String) (s : Pop3State) : HRes :=
  match args with
  | a :: _ =>
    if a = USERNAME then
      if s.connClosed then .error (s, [])
      else .ok ({s with username := a}, [.text "+OK User accepted"])
    else sendAll s [.text "-ERR Invalid user"]
  | [] => sendAll s [.text "-ERR Invalid user"]

/-- The PASS branch of `handle_auth`. -/
def handlePass (args : List String) (s : Pop3State) : HRes :=
  match args with
  | a :: _ =>
    if s.username = USERNAME ∧ a = PASSWORD then
      if s.connClosed then .error (s, [])
      else .ok ({s with state := "TRANSACTION"}, [.text "+OK Authenticated"])
    else sendAll s [.text "-ERR Invalid password"]
  | [] => sendAll s [.text "-ERR Invalid password"]

/-- The QUIT branches of both phase handlers: reply, then
`self.conn.close()`. -/
def handleQuit (s : Pop3State) : HRes :=
  if s.connClosed then .error (s, [])
  else .ok ({s with connClosed := true}, [.text "+OK Goodbye"])

/-- `Pop3Session.handle_auth`. -/
def handle_auth (cmd : String) (args : List String) (s : Pop3State) : HRes :=
  if cmd = "USER" then handleUser args s
  else if cmd = "PASS" then handlePass args s
  else if cmd = "QUIT" then handleQuit s
  else sendAll s [.text "-ERR Command not allowed"]

/-- The code of the TOP handler that splits `lines` into header and body,
carrying the `sep_found` flag: before the first empty line, lines go to
the header; the first empty line flips the flag and every line from it
on (the empty line included) goes to the body. -/
def topSplitAux : List Msg → Bool → List Msg × List Msg
  | [], _ => ([], [])
  | l :: rest, sepFound =>
    let sf := if sepFound = false ∧ l = [] then true else sepFound
    let r := topSplitAux rest sf
    if sf = false then (l :: r.1, r.2) else (r.1, l :: r.2)

def topSplit (ls : List Msg) : List Msg × List Msg := topSplitAux ls false

/-- The STAT branch of `handle_transaction`. -/
def handleStat (s : Pop3State) : HRes :=
  sendAll s [.text ("+OK " ++ toString ((s.messages.length : Int) - s.deleted.card)
    ++ " " ++ toString (((listedPairs s).map (fun p => p.2.length)).sum))]

/-- The LIST branch of `handle_transaction`. -/
def handleList (args : List String) (s : Pop3State) : HRes :=
  match args with
  | [] =>
    sendAll s ([.text ("+OK " ++ toString s.messages.length ++ " messages")]
      ++ (listedPairs s).map (fun p =>
          .text (toString (p.1 + 1) ++ " " ++ toString p.2.length))
      ++ [.text "."])
  | a :: _ =>
    match pyInt a with
    | .error _ => .error (s, [])
    | .ok v =>
      if 0 ≤ v - 1 ∧ v - 1 < (s.messages.length : Int) ∧ (v - 1).toNat ∉ s.deleted then
        sendAll s [.text ("+OK " ++ toString (v - 1 + 1) ++ " "
          ++ toString (s.messages.getD (v - 1).toNat []).length)]
      else sendAll s [.text "-ERR No such message"]

/-- The RETR branch of `handle_transaction`. -/
def handleRetr (args : List String) (s : Pop3State) : HRes :=
  match getArg args 0 with
  | .error _ => .error (s, [])
  | .ok a =>
    match pyInt a with
    | .error _ => .error (s, [])
    | .ok v =>
      if 0 ≤ v - 1 ∧ v - 1 < (s.messages.length : Int) ∧ (v - 1).toNat ∉ s.deleted then
        if s.connClosed then .error (s, [])
        else
          match sendDecoded (pySplitlines (s.messages.getD (v - 1).toNat []) [])
              [.text ("+OK "
                ++ toString (s.messages.getD (v - 1).toNat []).length ++ " octets")] with
          | .ok out => .ok (s, out ++ [.text "."])
          | .error out => .error (s, out)
      else sendAll s [.text "-ERR No such message"]

/-- The DELE branch of `handle_transaction`: range-check, then mark. -/
def handleDele (args : List String) (s : Pop3State) : HRes :=
  match getArg args 0 with
  | .error _ => .error (s, [])
  | .ok a =>
    match pyInt a with
    | .error _ => .error (s, [])
    | .ok v =>
      if 0 ≤ v - 1 ∧ v - 1 < (s.messages.length : Int) then
        sendAll {s with deleted := insert (v - 1).toNat s.deleted}
          [.text ("+OK Message " ++ toString (v - 1 + 1) ++ " marked for deletion")]
      else sendAll s [.text "-ERR No such message"]

/-- The RSET branch of `handle_transaction`: clear every mark. -/
def handleRset (s : Pop3State) : HRes :=
  sendAll {s with deleted := (∅ : Finset ℕ)} [.text "+OK Deletion marks cleared"]

/-- The UIDL branch of `handle_transaction`. -/
def handleUidl (args : List String) (s : Pop3State) : HRes :=
  match args with
  | [] =>
    sendAll s ([.text "+OK unique-id listing follows"]
      ++ (listedPairs s).map (fun p =>
          .text (toString (p.1 + 1) ++ " UID" ++ pad4 (p.1 + 1)))
      ++ [.text "."])
  | a :: _ =>
    match pyInt a with
    | .error _ => .error (s, [])
    | .ok v =>
      if 0 ≤ v - 1 ∧ v - 1 < (s.messages.length : Int) ∧ (v - 1).toNat ∉ s.deleted then
        sendAll s [.text ("+OK " ++ toString (v - 1 + 1) ++ " UID"
          ++ pad4 ((v - 1).toNat + 1))]
      else sendAll s [.text "-ERR No such message"]

/-- The TOP branch of `handle_transaction`. -/
def handleTop (args : List String) (s : Pop3State) : HRes :=
  match getArg args 0 with
  | .error _ => .error (s, [])
  | .ok a =>
    match pyInt a with
    | .error _ => .error (s, [])
    | .ok v =>
      match getArg args 1 with
      | .error _ => .error (s, [])
      | .ok b =>
        match pyInt b with
        | .error _ => .error (s, [])
        | .ok nv =>
          if 0 ≤ v - 1 ∧ v - 1 < (s.messages.length : Int) ∧ (v - 1).toNat ∉ s.deleted then
            if s.connClosed then .error (s, [])
            else
              match sendDecoded
                  ((topSplit (pySplitlines (s.messages.getD (v - 1).toNat []) [])).1
                    ++ pyTake nv (topSplit (pySplitlines
                        (s.messages.getD (v - 1).toNat []) [])).2)
                  [.text "+OK Top of message follows"] with
              | .ok out => .ok (s, out ++ [.text "."])
              | .error out => .error (s, out)
          else sendAll s [.text "-ERR No such message"]

/-- `Pop3Session.handle_transaction`: the `if cmd == ... / elif ...`
dispatch. -/
def handle_transaction (cmd : String) (args : List String) (s : Pop3State) : HRes :=
  if cmd = "STAT" then handleStat s
  else if cmd = "LIST" then handleList args s
  else if cmd = "RETR" then handleRetr args s
  else if cmd = "DELE" then handleDele args s
  else if cmd = "NOOP" then sendAll s [.text "+OK"]
  else if cmd = "RSET" then handleRset s
  else if cmd = "UIDL" then handleUidl args s
  else if cmd = "TOP" then handleTop args s
  else if cmd = "QUIT" then handleQuit s
  else sendAll s [.text "-ERR Command not supported"]

/-- The session state after running a command's handler, whether it
returned normally or raised (the Python object keeps the mutations made
before the raise). -/
def stateOf (r : HRes) : Pop3State :=
  match r with
  | .ok (s, _) => s
  | .error (s, _) => s

/-- The lines a handler sent on the socket. -/
def outputOf (r : HRes) : List OutLine :=
  match r with
  | .ok (_, o) => o
  | .error (_, o) => o

/-- The session state after one Transaction-phase command. -/
def runCmd (s : Pop3State) (cmd : String) (args : List String) : Pop3State :=
  stateOf (handle_transaction cmd args s)

/-- One event seen by `recv` in `Pop3Session.handle`: a decoded chunk of
bytes, or a transport error (a raising `recv`).  The end of the event
list is EOF (`recv` returning no data). -/
inductive Ev where
  | data (s : String)
  | fault

/-- The body of the inner `while '\r\n' in buffer` loop for one framed
line: strip, skip empty lines, split into upper-cased verb and argument
tokens, dispatch on the phase. -/
def processLine (line : String) (s : Pop3State) : HRes :=
  let line := pyStrip line
  if line = "" then .ok (s, [])
  else
    match pySplitWs line with
    | [] => .ok (s, [])
    | c :: args =>
      let cmd := pyUpper c
      if s.state = "AUTH" then handle_auth cmd args s
      else if s.state = "TRANSACTION" then handle_transaction cmd args s
      else .ok (s, [])

/-- Run the framed lines of one received chunk in order; an exception
from any line aborts the whole `handle` loop (the `except` clause
breaks), keeping the state and output produced so far. -/
def processLines : List String → Pop3State → List OutLine → HRes
  | [], s, out => .ok (s, out)
  | l :: rest, s, out =>
    match processLine l s with
    | .ok (s', o) => processLines rest s' (out ++ o)
    | .error (s', o) => .error (s', out ++ o)

/-- Result of the `while True` receive loop of `Pop3Session.handle`:
final session state, every line sent, and whether the loop ended through
the `except` clause (a raised exception) rather than EOF. -/
structure RunResult where
  finalState : Pop3State
  output : List OutLine
  aborted : Bool
deriving DecidableEq

/-- The `while True` loop of `Pop3Session.handle`: receive a chunk
(raises once the socket was closed by QUIT), stop on EOF or error,
append to the framing buffer, split off every complete CRLF-terminated
line and process it. -/
def loopRun : List Ev → String → Pop3State → List OutLine → RunResult
  | [], _, s, out => ⟨s, out, false⟩
  | .fault :: _, _, s, out => ⟨s, out, true⟩
  | .data d :: rest, buffer, s, out =>
    if s.connClosed then ⟨s, out, true⟩
    else if d = "" then ⟨s, out, false⟩
    else
      let parts := splitCRLF (buffer ++ d)
      match processLines parts.dropLast s [] with
      | .ok (s', o) => loopRun rest (parts.getLastD "") s' (out ++ o)
      | .error (s', o) => ⟨s', out ++ o, true⟩

/-- The content of the first file of the given name,
`open(os.path.join(MAILBOX_DIR, fname), "rb").read()`. -/
def lookupContent (store : Store) (name : String) : Msg :=
  match store.find? (fun p => p.1 = name) with
  | some p => p.2
  | none => []

/-- `Pop3Session.load_messages`: the contents of the `.txt` files of the
mailbox directory, in lexicographically sorted file-name order. -/
def load_messages (store : Store) : List Msg :=
  ((pySorted (store.map Prod.fst)).filter
    (fun n => strEndsWith n ".txt")).map (fun n => lookupContent store n)

/-- The commit-time file name for marked index `i`:
`f"{i + 1}.txt"`. -/
def fname (i : ℕ) : String := toString (i + 1) ++ ".txt"

/-- `os.path.exists` on the mailbox directory. -/
def exists_file (store : Store) (name : String) : Bool :=
  store.any (fun p => p.1 = name)

/-- `os.remove` on the mailbox directory. -/
def removeFile (store : Store) (name : String) : Store :=
  store.filter (fun p => p.1 ≠ name)

/-- The body of the commit loop: remove `f"{i + 1}.txt"` if it exists,
otherwise do nothing. -/
def removeStep (store : Store) (i : ℕ) : Store :=
  if exists_file store (fname i) then removeFile store (fname i) else store

/-- `Pop3Session.cleanup_deleted`: walk the marked indices in
descending order (`sorted(self.deleted, reverse=True)`) and remove each
index's file when present. -/
def cleanup_deleted (deleted : Finset ℕ) (store : Store) : Store :=
  ((deleted.sort (· ≤ ·)).reverse).foldl removeStep store

/-- Result of a whole session: final session state, output, whether the
loop was aborted by an exception, and the mailbox directory after
commit. -/
structure SessionResult where
  finalState : Pop3State
  output : List OutLine
  aborted : Bool
  store : Store
deriving DecidableEq

/-- `Pop3Session.handle` on a fresh session (as built by `__init__`
from the given mailbox directory): greet, run the receive loop, close
the connection and commit the marked deletions. -/
def handle (evs : List Ev) (store : Store) : SessionResult :=
  let s0 : Pop3State :=
    ⟨"AUTH", "", load_messages store, (∅ : Finset ℕ), false⟩
  let r := loopRun evs "" s0 [.text "+OK POP3 server ready"]
  ⟨r.finalState, r.output, r.aborted, cleanup_deleted r.finalState.deleted store⟩

/-- One commit step on a store without the index's file is `os.remove`
skipped: the explicit `os.path.exists` guard makes it the identity. -/
lemma removeStep_eq_removeFile (st : Store) (i : ℕ) :
    removeStep st i = removeFile st (fname i) := by
  unfold removeStep
  split
  · rfl
  · next h =>
    unfold removeFile
    symm
    rw [List.filter_eq_self]
    intro a ha
    simp only [exists_file, Bool.not_eq_true, List.any_eq_false] at h
    simpa using h a ha

/-- Folding the commit step over any list of indices removes exactly the
files named after those indices. -/
lemma foldl_removeStep (L : List ℕ) (st : Store) :
    L.foldl removeStep st =
      st.filter (fun p => decide (∀ i ∈ L, p.1 ≠ fname i)) := by
  induction L generalizing st with
  | nil =>
    rw [List.foldl_nil]
    symm
    rw [List.filter_eq_self]
    intro a _
    show decide (∀ i ∈ ([] : List ℕ), a.1 ≠ fname i) = true
    rw [decide_eq_true_eq]
    intro i hi
    exact absurd hi (List.not_mem_nil i)
  | cons i L ih =>
    rw [List.foldl_cons, removeStep_eq_removeFile, ih]
    unfold removeFile
    rw [List.filter_filter]
    apply List.filter_congr
    intro a _
    show (decide (∀ j ∈ L, a.1 ≠ fname j) && decide (a.1 ≠ fname i))
      = decide (∀ j ∈ i :: L, a.1 ≠ fname j)
    rw [← Bool.decide_and, decide_eq_decide]
    constructor
    · rintro ⟨h1, h2⟩ j hj
      rcases List.mem_cons.mp hj with rfl | hj2
      · exact h2
      · exact h1 j hj2
    · intro h
      exact ⟨fun j hj => h j (List.mem_cons.mpr (Or.inr hj)),
        h i (List.mem_cons_self i L)⟩

/-- `cleanup_deleted` keeps exactly the files whose name is not the
commit-time name of a marked index. -/
lemma cleanup_deleted_eq_filter (d : Finset ℕ) (st : Store) :
    cleanup_deleted d st =
      st.filter (fun p => decide (∀ i ∈ d, p.1 ≠ fname i)) := by
  unfold cleanup_deleted
  rw [foldl_removeStep]
  apply List.filter_congr
  intro a _
  simp [List.mem_reverse, Finset.mem_sort]

/-- C4: the commit walk visits the marked indices in descending
snapshot-index order; removing an index whose backing file is absent is
a no-op rather than a fault; and running the commit twice with the same
mark set leaves the store exactly as running it once. -/
theorem c4_commit_descending_noop_idempotent (d : Finset ℕ) (st st2 : Store)
    (i : ℕ) (h : exists_file st2 (fname i) = false) :
    List.Sorted (· ≥ ·) ((d.sort (· ≤ ·)).reverse) ∧
    removeStep st2 i = st2 ∧
    cleanup_deleted d (cleanup_deleted d st) = cleanup_deleted d st := by
  refine ⟨?_, ?_, ?_⟩
  · rw [List.Sorted, List.pairwise_reverse]
    exact (Finset.sort_sorted (· ≤ ·) d).imp (fun h => h)
  · simp [removeStep, h]
  · rw [cleanup_deleted_eq_filter, cleanup_deleted_eq_filter, List.filter_filter]
    apply List.filter_congr
    intro a _
    simp

/-- C4, witness: a concrete mark set and store, with the absent-file
no-op checked on the empty directory. -/
theorem c4_commit_descending_noop_idempotent_witness :
    exists_file ([] : Store) (fname 0) = false ∧
    (List.Sorted (· ≥ ·) ((({0, 2} : Finset ℕ).sort (· ≤ ·)).reverse) ∧
     removeStep ([] : Store) 0 = [] ∧
     cleanup_deleted ({0, 2} : Finset ℕ)
        (cleanup_deleted ({0, 2} : Finset ℕ) [("1.txt", [65]), ("3.txt", [66])]) =
       cleanup_deleted ({0, 2} : Finset ℕ) [("1.txt", [65]), ("3.txt", [66])]) :=
  ⟨rfl, c4_commit_descending_noop_idempotent {0, 2} [("1.txt", [65]), ("3.txt", [66])]
    [] 0 rfl⟩

/-- C10: commit removes only the files named `f"{i + 1}.txt"` for the
marked indices `i`; every entry of the directory with any other name —
in particular the file of every unmarked index — is kept, unchanged and
in order. -/
theorem c10_commit_touches_only_marked_names (d : Finset ℕ) (st : Store) :
    cleanup_deleted d st =
      st.filter (fun p => decide (∀ i ∈ d, p.1 ≠ fname i)) :=
  cleanup_deleted_eq_filter d st

/-- A Transaction-phase session over two one-line messages. -/
def sTrans : Pop3State :=
  ⟨"TRANSACTION", "user", [[72, 105], [72, 111]], (∅ : Finset ℕ), false⟩

/-- A two-message mailbox directory following the documented
`1.txt, 2.txt, ...` naming. -/
def mb2 : Store := [("1.txt", [72, 105]), ("2.txt", [72, 111])]

/-- A ten-message mailbox directory following the documented
`1.txt, 2.txt, ...` naming; `sorted(os.listdir(...))` interleaves
`10.txt` between `1.txt` and `2.txt`. -/
def mb10 : Store :=
  [("1.txt", [1]), ("2.txt", [2]), ("3.txt", [3]), ("4.txt", [4]),
   ("5.txt", [5]), ("6.txt", [6]), ("7.txt", [7]), ("8.txt", [8]),
   ("9.txt", [9]), ("10.txt", [10])]

/-- C1: a command whose numeric argument fails to parse does NOT produce
a failure reply with the phase kept — the `int()` call raises, the
exception escapes the handler with no reply sent (`.error (s, [])`),
aborts line processing (a following NOOP is never handled), and ends the
receive loop: after authenticating, `RETR x` leaves only the greeting
and the two auth replies in the output and the session is over.  The
claim is right about the intent (the spec's ProtocolSyntaxError path)
and the code is a slip. -/
theorem c1_unparsable_argument_kills_session :
    handle_transaction "RETR" ["x"] sTrans = .error (sTrans, []) ∧
    handle_transaction "DELE" [] sTrans = .error (sTrans, []) ∧
    handle_transaction "TOP" ["1", "z"] sTrans = .error (sTrans, []) ∧
    processLines ["RETR x", "NOOP"] sTrans [] = .error (sTrans, []) ∧
    (handle [Ev.data "USER user\x0d\x0aPASS pass\x0d\x0aRETR x\x0d\x0aNOOP\x0d\x0a"]
        mb2).aborted = true ∧
    (handle [Ev.data "USER user\x0d\x0aPASS pass\x0d\x0aRETR x\x0d\x0aNOOP\x0d\x0a"]
        mb2).output =
      [.text "+OK POP3 server ready", .text "+OK User accepted",
       .text "+OK Authenticated"] :=
  ⟨rfl, rfl, rfl, rfl, rfl, rfl⟩

/-- C2, counterexample: in the Auth phase, USER with the non-empty name
"alice" does not reply success and does not record the name — the
handler compares against the configured username and replies
`-ERR Invalid user`. -/
theorem c2_user_nonempty_not_sufficient :
    ¬ (∀ (s : Pop3State) (name : String), s.connClosed = false → name ≠ "" →
        outputOf (handle_auth "USER" [name] s) = [.text "+OK User accepted"] ∧
        (stateOf (handle_auth "USER" [name] s)).username = name) := by
  intro h
  have h2 := (h ⟨"AUTH", "", [], (∅ : Finset ℕ), false⟩ "alice" rfl (by decide)).1
  exact absurd
    (h2 : ([OutLine.text "-ERR Invalid user"] : List OutLine)
      = [OutLine.text "+OK User accepted"]) (by decide)

/-- C2, amended: USER replies success and records the name as pending
username exactly when the name equals the configured username `"user"`;
any other name, and an absent name, gets a failure reply with the state
unchanged. -/
theorem c2_user_records_configured_name (s : Pop3State) (a : String)
    (rest : List String) (h : s.connClosed = false) :
    handle_auth "USER" (a :: rest) s =
      (if a = USERNAME then
        .ok ({s with username := a}, [.text "+OK User accepted"])
      else .ok (s, [.text "-ERR Invalid user"])) ∧
    handle_auth "USER" [] s = .ok (s, [.text "-ERR Invalid user"]) := by
  constructor
  · by_cases ha : a = USERNAME <;> simp [handle_auth, handleUser, sendAll, h, ha]
  · simp [handle_auth, handleUser, sendAll, h]

/-- C2, witness for the amended theorem at a concrete session. -/
theorem c2_user_records_configured_name_witness :
    (⟨"AUTH", "", [], (∅ : Finset ℕ), false⟩ : Pop3State).connClosed = false ∧
    handle_auth "USER" ["user"] ⟨"AUTH", "", [], (∅ : Finset ℕ), false⟩ =
      .ok ({(⟨"AUTH", "", [], (∅ : Finset ℕ), false⟩ : Pop3State) with
        username := "user"}, [.text "+OK User accepted"]) := by
  refine ⟨rfl, ?_⟩
  have h := c2_user_records_configured_name
    ⟨"AUTH", "", [], (∅ : Finset ℕ), false⟩ "user" [] rfl
  simpa using h.1

/-- C3: with the documented naming `1.txt` … `10.txt`, snapshot indices
follow the lexicographic listing (1.txt, 10.txt, 2.txt, …), so snapshot
index 1 is the content of `10.txt`; a session that marks index 1
(`DELE 2`) and ends by EOF commits by removing `f"{1+1}.txt"` =
`2.txt`.  The marked item's file `10.txt` survives and the unmarked
item `2.txt` (snapshot index 2) is permanently removed, so the store is
not "original items minus marked items": the claim is right about the
intent and the commit's index-to-name translation is a slip. -/
theorem c3_commit_removes_wrong_file :
    (handle [Ev.data "USER user\x0d\x0aPASS pass\x0d\x0aDELE 2\x0d\x0a"]
        mb10).finalState.deleted = {1} ∧
    (load_messages mb10).get? 1 = some (lookupContent mb10 "10.txt") ∧
    (load_messages mb10).get? 2 = some (lookupContent mb10 "2.txt") ∧
    exists_file (handle [Ev.data "USER user\x0d\x0aPASS pass\x0d\x0aDELE 2\x0d\x0a"]
        mb10).store "10.txt" = true ∧
    exists_file (handle [Ev.data "USER user\x0d\x0aPASS pass\x0d\x0aDELE 2\x0d\x0a"]
        mb10).store "2.txt" = false ∧
    (2 : ℕ) ∉ (handle [Ev.data "USER user\x0d\x0aPASS pass\x0d\x0aDELE 2\x0d\x0a"]
        mb10).finalState.deleted := by
  have hstore : (handle [Ev.data "USER user\x0d\x0aPASS pass\x0d\x0aDELE 2\x0d\x0a"]
      mb10).store = cleanup_deleted ({1} : Finset ℕ) mb10 := rfl
  have hc : cleanup_deleted ({1} : Finset ℕ) mb10 = removeStep mb10 1 := by
    simp [cleanup_deleted, Finset.sort_singleton]
  refine ⟨rfl, rfl, rfl, ?_, ?_, ?_⟩
  · rw [hstore, hc]; rfl
  · rw [hstore, hc]; rfl
  · rw [show (handle [Ev.data "USER user\x0d\x0aPASS pass\x0d\x0aDELE 2\x0d\x0a"]
        mb10).finalState.deleted = {1} from rfl]
    simp

/-- C5: the STAT reply reports exactly the snapshot's message count
minus the size of the deletion-mark set, and the byte size summed over
exactly the non-marked snapshot entries. -/
theorem c5_stat_reports_count_and_size (s : Pop3State) (h : s.connClosed = false) :
    handle_transaction "STAT" [] s =
      .ok (s, [.text ("+OK "
        ++ toString ((s.messages.length : Int) - s.deleted.card) ++ " "
        ++ toString (((s.messages.enum.filter (fun p => p.1 ∉ s.deleted)).map
            (fun p => p.2.length)).sum))]) := by
  simp [handle_transaction, handleStat, sendAll, listedPairs, h]

/-- C5, witness: two two-byte messages, none marked: `+OK 2 4`. -/
theorem c5_stat_reports_count_and_size_witness :
    sTrans.connClosed = false ∧
    handle_transaction "STAT" [] sTrans = .ok (sTrans, [.text "+OK 2 4"]) :=
  ⟨rfl, c5_stat_reports_count_and_size sTrans rfl⟩

/-- The session state left by a handler is the one `sendAll` was called
with, whether the send succeeded or raised. -/
lemma stateOf_sendAll (s : Pop3State) (ls : List OutLine) :
    stateOf (sendAll s ls) = s := by
  unfold sendAll
  split <;> rfl

/-- Effect of a parsed, in-range DELE on the session state: mark the
0-based index. -/
lemma runCmd_dele (s : Pop3State) (a : String) (v : Int)
    (hp : pyInt a = .ok v) (h1 : 0 ≤ v - 1)
    (h2 : v - 1 < (s.messages.length : Int)) :
    runCmd s "DELE" [a] = {s with deleted := insert (v - 1).toNat s.deleted} := by
  unfold runCmd handle_transaction handleDele
  simp only [String.reduceEq, reduceIte, getArg, List.get?, hp]
  rw [if_pos ⟨h1, h2⟩]
  exact stateOf_sendAll _ _

/-- Effect of RSET on the session state: clear every mark. -/
lemma runCmd_rset (s : Pop3State) :
    runCmd s "RSET" [] = {s with deleted := (∅ : Finset ℕ)} := by
  unfold runCmd handle_transaction handleRset
  simp only [String.reduceEq, reduceIte]
  exact stateOf_sendAll _ _

/-- A Transaction-phase session over two one-byte messages with message
1 already marked for deletion. -/
def c6_s : Pop3State := ⟨"TRANSACTION", "user", [[65], [66]], {0}, false⟩

/-- C6, counterexample: in a session state that already carries a
deletion mark (index 0), executing DELE 2 followed by RSET does not
restore the observable state: RSET clears every mark, so STAT reports
`+OK 2 2` afterwards while it reported `+OK 1 1` before the DELE. -/
theorem c6_dele_rset_not_restoring :
    outputOf (handle_transaction "STAT" []
        (runCmd (runCmd c6_s "DELE" ["2"]) "RSET" []))
      ≠ outputOf (handle_transaction "STAT" [] c6_s) := by
  intro h
  exact absurd
    (h : ([OutLine.text "+OK 2 2"] : List OutLine) = [OutLine.text "+OK 1 1"])
    (by decide)

/-- C6, amended: when the deletion-mark set is empty before the DELE,
executing DELE n (for a parsed, in-range index) followed by RSET
restores the session state — hence every STAT, LIST and UIDL reply —
to exactly its pre-DELE value. -/
theorem c6_dele_rset_restores_when_unmarked (s : Pop3State) (a : String)
    (v : Int) (hd : s.deleted = ∅) (hp : pyInt a = .ok v) (h1 : 0 ≤ v - 1)
    (h2 : v - 1 < (s.messages.length : Int)) :
    runCmd (runCmd s "DELE" [a]) "RSET" [] = s := by
  rw [runCmd_dele s a v hp h1 h2, runCmd_rset]
  cases s
  simp_all

/-- C6, witness: a one-message unmarked session, DELE 1 then RSET. -/
theorem c6_dele_rset_restores_when_unmarked_witness :
    (⟨"TRANSACTION", "user", [[65]], ∅, false⟩ : Pop3State).deleted = ∅ ∧
    pyInt "1" = .ok 1 ∧ (0 : Int) ≤ 1 - 1 ∧
    (1 : Int) - 1 < ((⟨"TRANSACTION", "user", [[65]], ∅, false⟩ :
        Pop3State).messages.length : Int) ∧
    runCmd (runCmd ⟨"TRANSACTION", "user", [[65]], ∅, false⟩ "DELE" ["1"])
        "RSET" [] = ⟨"TRANSACTION", "user", [[65]], ∅, false⟩ :=
  ⟨rfl, rfl, by decide, by decide,
    c6_dele_rset_restores_when_unmarked _ "1" 1 rfl rfl (by decide) (by decide)⟩

/-- C7: the multi-line LIST and UIDL listings are built from exactly the
enumerated snapshot entries whose index is not marked (so no reported
entry's index is in the deletion-mark set), and the single-index forms
reply `-ERR No such message` whenever the requested index is out of
range or marked. -/
theorem c7_listings_never_report_marked (s : Pop3State) (a : String)
    (v : Int) (hc : s.connClosed = false) (hp : pyInt a = .ok v)
    (hbad : ¬(0 ≤ v - 1 ∧ v - 1 < (s.messages.length : Int) ∧
      (v - 1).toNat ∉ s.deleted)) :
    (listedPairs s).all (fun p => decide (p.1 ∉ s.deleted)) = true ∧
    handle_transaction "LIST" [] s =
      .ok (s, [.text ("+OK " ++ toString s.messages.length ++ " messages")]
        ++ (listedPairs s).map (fun p =>
            .text (toString (p.1 + 1) ++ " " ++ toString p.2.length))
        ++ [.text "."]) ∧
    handle_transaction "UIDL" [] s =
      .ok (s, [.text "+OK unique-id listing follows"]
        ++ (listedPairs s).map (fun p =>
            .text (toString (p.1 + 1) ++ " UID" ++ pad4 (p.1 + 1)))
        ++ [.text "."]) ∧
    handle_transaction "LIST" [a] s = .ok (s, [.text "-ERR No such message"]) ∧
    handle_transaction "UIDL" [a] s = .ok (s, [.text "-ERR No such message"]) := by
  refine ⟨?_, ?_, ?_, ?_, ?_⟩
  · rw [List.all_eq_true]
    intro p hp2
    unfold listedPairs at hp2
    exact (List.mem_filter.mp hp2).2
  · simp [handle_transaction, handleList, sendAll, hc]
  · simp [handle_transaction, handleUidl, sendAll, hc]
  · unfold handle_transaction handleList
    simp only [String.reduceEq, reduceIte, hp]
    rw [if_neg hbad]
    simp [sendAll, hc]
  · unfold handle_transaction handleUidl
    simp only [String.reduceEq, reduceIte, hp]
    rw [if_neg hbad]
    simp [sendAll, hc]

/-- C7, witness: asking LIST/UIDL for message 1 while index 0 is marked
replies failure, and the listings hide it. -/
theorem c7_listings_never_report_marked_witness :
    c6_s.connClosed = false ∧ pyInt "1" = .ok 1 ∧
    ¬(0 ≤ (1 : Int) - 1 ∧ (1 : Int) - 1 < (c6_s.messages.length : Int) ∧
      ((1 : Int) - 1).toNat ∉ c6_s.deleted) ∧
    handle_transaction "LIST" ["1"] c6_s =
      .ok (c6_s, [.text "-ERR No such message"]) ∧
    handle_transaction "UIDL" ["1"] c6_s =
      .ok (c6_s, [.text "-ERR No such message"]) := by
  have hbad : ¬(0 ≤ (1 : Int) - 1 ∧ (1 : Int) - 1 < (c6_s.messages.length : Int) ∧
      ((1 : Int) - 1).toNat ∉ c6_s.deleted) := by
    simp [c6_s]
  have h := c7_listings_never_report_marked c6_s "1" 1 rfl rfl hbad
  exact ⟨rfl, rfl, hbad, h.2.2.2.1, h.2.2.2.2⟩

/-- C8: validity of the deletion marks — every marked index is a valid
0-based index into the snapshot. -/
def validMarks (s : Pop3State) : Prop :=
  ∀ i ∈ s.deleted, i < s.messages.length

/-- Marking an index that passed DELE's range check keeps every mark in
range. -/
lemma validMarks_insert (s : Pop3State) (v : Int)
    (hc : 0 ≤ v - 1 ∧ v - 1 < (s.messages.length : Int)) (h : validMarks s) :
    validMarks {s with deleted := insert (v - 1).toNat s.deleted} := by
  intro i hi
  show i < s.messages.length
  rcases Finset.mem_insert.mp hi with rfl | hi2
  · omega
  · exact h i hi2

/-- Clearing every mark keeps every mark in range. -/
lemma validMarks_empty (s : Pop3State) :
    validMarks {s with deleted := (∅ : Finset ℕ)} := by
  intro i hi
  exact absurd hi (Finset.not_mem_empty i)

/-- STAT never changes the session state. -/
lemma stateOf_handleStat (s : Pop3State) : stateOf (handleStat s) = s := by
  unfold handleStat
  exact stateOf_sendAll s _

/-- LIST never changes the session state. -/
lemma stateOf_handleList (args : List String) (s : Pop3State) :
    stateOf (handleList args s) = s := by
  unfold handleList
  repeat' split
  all_goals first | rfl | exact stateOf_sendAll s _

/-- RETR never changes the session state. -/
lemma stateOf_handleRetr (args : List String) (s : Pop3State) :
    stateOf (handleRetr args s) = s := by
  unfold handleRetr
  repeat' split
  all_goals first | rfl | exact stateOf_sendAll s _

/-- UIDL never changes the session state. -/
lemma stateOf_handleUidl (args : List String) (s : Pop3State) :
    stateOf (handleUidl args s) = s := by
  unfold handleUidl
  repeat' split
  all_goals first | rfl | exact stateOf_sendAll s _

/-- TOP never changes the session state. -/
lemma stateOf_handleTop (args : List String) (s : Pop3State) :
    stateOf (handleTop args s) = s := by
  unfold handleTop
  repeat' split
  all_goals first | rfl | exact stateOf_sendAll s _

/-- DELE preserves mark validity: it range-checks before marking. -/
lemma validMarks_handleDele (args : List String) (s : Pop3State)
    (h : validMarks s) : validMarks (stateOf (handleDele args s)) := by
  unfold handleDele
  repeat' split
  all_goals first
    | exact h
    | (rw [stateOf_sendAll]; exact h)
    | (rw [stateOf_sendAll]; exact validMarks_insert s _ (by assumption) h)

/-- RSET preserves mark validity: it clears the set. -/
lemma validMarks_handleRset (s : Pop3State) :
    validMarks (stateOf (handleRset s)) := by
  unfold handleRset
  rw [stateOf_sendAll]
  exact validMarks_empty s

/-- QUIT preserves mark validity: it only closes the connection. -/
lemma validMarks_handleQuit (s : Pop3State) (h : validMarks s) :
    validMarks (stateOf (handleQuit s)) := by
  unfold handleQuit
  split
  · exact h
  · exact h

/-- USER preserves mark validity. -/
lemma validMarks_handleUser (args : List String) (s : Pop3State)
    (h : validMarks s) : validMarks (stateOf (handleUser args s)) := by
  unfold handleUser
  repeat' split
  all_goals first | exact h | (rw [stateOf_sendAll]; exact h)

/-- PASS preserves mark validity. -/
lemma validMarks_handlePass (args : List String) (s : Pop3State)
    (h : validMarks s) : validMarks (stateOf (handlePass args s)) := by
  unfold handlePass
  repeat' split
  all_goals first | exact h | (rw [stateOf_sendAll]; exact h)

/-- C8: every command handler preserves mark validity, whether it
returns normally or raises: DELE range-checks before marking, RSET
clears the set, and no handler ever touches the snapshot. -/
theorem c8_handlers_preserve_mark_validity (cmd : String)
    (args : List String) (s : Pop3State) (h : validMarks s) :
    validMarks (stateOf (handle_transaction cmd args s)) ∧
    validMarks (stateOf (handle_auth cmd args s)) := by
  constructor
  · unfold handle_transaction
    split_ifs
    · rw [stateOf_handleStat]; exact h
    · rw [stateOf_handleList]; exact h
    · rw [stateOf_handleRetr]; exact h
    · exact validMarks_handleDele args s h
    · rw [stateOf_sendAll]; exact h
    · exact validMarks_handleRset s
    · rw [stateOf_handleUidl]; exact h
    · rw [stateOf_handleTop]; exact h
    · exact validMarks_handleQuit s h
    · rw [stateOf_sendAll]; exact h
  · unfold handle_auth
    split_ifs
    · exact validMarks_handleUser args s h
    · exact validMarks_handlePass args s h
    · exact validMarks_handleQuit s h
    · rw [stateOf_sendAll]; exact h

/-- C8, witness: a concrete DELE that marks index 0 of a two-message
snapshot keeps the marks valid, in both phases. -/
theorem c8_handlers_preserve_mark_validity_witness :
    validMarks sTrans ∧
    validMarks (stateOf (handle_transaction "DELE" ["1"] sTrans)) ∧
    validMarks (stateOf (handle_auth "DELE" ["1"] sTrans)) := by
  have h0 : validMarks sTrans := by
    intro i hi
    exact absurd hi (Finset.not_mem_empty i)
  have h := c8_handlers_preserve_mark_validity "DELE" ["1"] sTrans h0
  exact ⟨h0, h.1, h.2⟩

/-- The header block in the spec's words: all lines up to the first
empty line. -/
def headerOf (lines : List Msg) : List Msg :=
  lines.takeWhile (fun l => decide (l ≠ []))

/-- The body in the spec's words: the remaining lines (the separating
empty line is the first of them, since `sep_found` flips before the
append). -/
def bodyOf (lines : List Msg) : List Msg :=
  lines.dropWhile (fun l => decide (l ≠ []))

lemma topSplitAux_true (ls : List Msg) : topSplitAux ls true = ([], ls) := by
  induction ls with
  | nil => rfl
  | cons l rest ih => simp [topSplitAux, ih]

/-- The `sep_found` loop of the TOP handler computes exactly the
header/body split described by the spec. -/
lemma topSplit_eq (ls : List Msg) : topSplit ls = (headerOf ls, bodyOf ls) := by
  unfold topSplit headerOf bodyOf
  induction ls with
  | nil => rfl
  | cons l rest ih =>
    by_cases hl : l = []
    · subst hl
      rw [List.takeWhile_cons, List.dropWhile_cons]
      simp [topSplitAux, topSplitAux_true]
    · rw [List.takeWhile_cons, List.dropWhile_cons]
      simp [topSplitAux, hl, ih]

/-- Sending a run of lines that all decode succeeds and emits exactly
their decoded forms, in order, after what was already sent. -/
lemma sendDecoded_ok (ls : List Msg) (out : List OutLine)
    (h : ∀ l ∈ ls, validUtf8 l = true) :
    sendDecoded ls out = .ok (out ++ ls.map .data) := by
  induction ls generalizing out with
  | nil => simp [sendDecoded]
  | cons l rest ih =>
    rw [sendDecoded, if_pos (h l (List.mem_cons_self l rest)),
      ih _ (fun l2 hl2 => h l2 (List.mem_cons_of_mem l hl2))]
    simp

/-- A Transaction-phase session holding one message whose single line
is the lone byte 0xFF, which is not valid UTF-8, so
`line.decode()` raises `UnicodeDecodeError`. -/
def s9bad : Pop3State :=
  ⟨"TRANSACTION", "user", [[255]], (∅ : Finset ℕ), false⟩

/-- C9, counterexample: on a non-marked in-range message whose content
is not valid UTF-8, `TOP 1 0` does not reply with the header block and
the terminator: `line.decode()` raises mid-reply, so only the `+OK`
banner is sent, no header line and no `.` terminator, and the exception
ends the session. -/
theorem c9_top_aborts_on_undecodable :
    handle_transaction "TOP" ["1", "0"] s9bad =
      .error (s9bad, [.text "+OK Top of message follows"]) ∧
    outputOf (handle_transaction "TOP" ["1", "0"] s9bad) ≠
      [.text "+OK Top of message follows"]
        ++ (headerOf (pySplitlines [255] [])).map .data ++ [.text "."] := by
  refine ⟨rfl, ?_⟩
  rw [show outputOf (handle_transaction "TOP" ["1", "0"] s9bad)
    = [OutLine.text "+OK Top of message follows"] from rfl]
  decide

/-- C9, amended: for a parsed, in-range, non-marked index, a
non-negative count `k`, and a message every line of which is valid
UTF-8 (so `line.decode()` succeeds), TOP replies with the header block
(all lines up to the first empty line), then at most the first `k`
body lines, then the `.` terminator; header and body together are
exactly the message's lines, and `k = 0` yields the header lines
only. -/
theorem c9_top_splits_header_and_body (s : Pop3State) (a b : String)
    (v kv : Int) (hc : s.connClosed = false) (ha : pyInt a = .ok v)
    (hb : pyInt b = .ok kv) (hk : 0 ≤ kv)
    (hgood : 0 ≤ v - 1 ∧ v - 1 < (s.messages.length : Int) ∧
      (v - 1).toNat ∉ s.deleted)
    (hdec : ∀ l ∈ pySplitlines (s.messages.getD (v - 1).toNat []) [],
      validUtf8 l = true) :
    handle_transaction "TOP" [a, b] s =
      .ok (s, [.text "+OK Top of message follows"]
        ++ (headerOf (pySplitlines (s.messages.getD (v - 1).toNat []) [])).map .data
        ++ ((bodyOf (pySplitlines (s.messages.getD (v - 1).toNat []) [])).take
            kv.toNat).map .data
        ++ [.text "."]) ∧
    headerOf (pySplitlines (s.messages.getD (v - 1).toNat []) [])
      ++ bodyOf (pySplitlines (s.messages.getD (v - 1).toNat []) [])
      = pySplitlines (s.messages.getD (v - 1).toNat []) [] ∧
    (kv = 0 → handle_transaction "TOP" [a, b] s =
      .ok (s, [.text "+OK Top of message follows"]
        ++ (headerOf (pySplitlines (s.messages.getD (v - 1).toNat []) [])).map .data
        ++ [.text "."])) := by
  have hptake : pyTake kv (bodyOf (pySplitlines (s.messages.getD (v - 1).toNat []) []))
      = (bodyOf (pySplitlines (s.messages.getD (v - 1).toNat []) [])).take kv.toNat := by
    unfold pyTake
    rw [if_neg (not_lt.mpr hk)]
  have hdec2 : ∀ l ∈ headerOf (pySplitlines (s.messages.getD (v - 1).toNat []) [])
      ++ (bodyOf (pySplitlines (s.messages.getD (v - 1).toNat []) [])).take kv.toNat,
      validUtf8 l = true := by
    intro l hl
    apply hdec
    rw [← List.takeWhile_append_dropWhile (fun l => decide (l ≠ []))
      (pySplitlines (s.messages.getD (v - 1).toNat []) [])]
    rcases List.mem_append.mp hl with h1 | h1
    · exact List.mem_append_left _ h1
    · exact List.mem_append_right _ (List.take_subset _ _ h1)
  have hmain : handle_transaction "TOP" [a, b] s =
      .ok (s, [.text "+OK Top of message follows"]
        ++ (headerOf (pySplitlines (s.messages.getD (v - 1).toNat []) [])).map .data
        ++ ((bodyOf (pySplitlines (s.messages.getD (v - 1).toNat []) [])).take
            kv.toNat).map .data
        ++ [.text "."]) := by
    unfold handle_transaction handleTop
    simp only [String.reduceEq, reduceIte, getArg, List.get?, ha, hb]
    rw [if_pos hgood, if_neg (by simp [hc])]
    simp only [topSplit_eq]
    rw [hptake, sendDecoded_ok _ _ hdec2]
    simp [List.map_append, List.append_assoc]
  refine ⟨hmain, ?_, ?_⟩
  · unfold headerOf bodyOf
    exact List.takeWhile_append_dropWhile _ _
  · intro hkv
    subst hkv
    rw [hmain]
    simp

/-- A Transaction-phase session holding one message whose bytes are
`"A\r\n\r\nB"`: header line `A`, empty separator line, body line `B`. -/
def s9 : Pop3State :=
  ⟨"TRANSACTION", "user", [[65, 13, 10, 13, 10, 66]], (∅ : Finset ℕ), false⟩

/-- C9, witness: `TOP 1 0` on that message yields the header line only
before the terminator. -/
theorem c9_top_splits_header_and_body_witness :
    s9.connClosed = false ∧ pyInt "1" = .ok 1 ∧ pyInt "0" = .ok 0 ∧
    (0 : Int) ≤ 0 ∧
    (0 ≤ (1 : Int) - 1 ∧ (1 : Int) - 1 < (s9.messages.length : Int) ∧
      ((1 : Int) - 1).toNat ∉ s9.deleted) ∧
    (∀ l ∈ pySplitlines (s9.messages.getD ((1 : Int) - 1).toNat []) [],
      validUtf8 l = true) ∧
    handle_transaction "TOP" ["1", "0"] s9 =
      .ok (s9, [.text "+OK Top of message follows", .data [65], .text "."]) := by
  have hgood : 0 ≤ (1 : Int) - 1 ∧ (1 : Int) - 1 < (s9.messages.length : Int) ∧
      ((1 : Int) - 1).toNat ∉ s9.deleted := by
    refine ⟨by decide, by decide, ?_⟩
    simp [s9]
  have hdec : ∀ l ∈ pySplitlines (s9.messages.getD ((1 : Int) - 1).toNat []) [],
      validUtf8 l = true := by decide
  have h := c9_top_splits_header_and_body s9 "1" "0" 1 0 rfl rfl rfl (by decide)
    hgood hdec
  exact ⟨rfl, rfl, rfl, by decide, hgood, hdec, h.2.2 rfl⟩

end Pop3
